import Mathlib

/-!
Verification of the strength-computation engine of the stats-app backend.

The Python source (strength.py, schedule_strength.py, for_against.py, cache.py)
is shallowly embedded below: pandas DataFrames become lists of records, pivot
cells become Option-valued functions over (row-key, column-key), NaN becomes
Option.none, scores are modelled as rationals, and the fill-sentinel step
becomes Option.getD (-1).
-/

namespace StatsApp

/-- Value of a raw spreadsheet cell: either a numeric value or free text.
Models what pandas astype(int) can meet in the MatchId column. -/
inductive CellVal : Type where
  | cint : Int → CellVal
  | cstr : String → CellVal
  deriving Repr, DecidableEq

/-- One raw input row (after the positional column assignment and the drop of
the H1/H2/Color columns).  The matchId field is Option-valued: none models a
null/absent MatchId cell. -/
structure RawRow : Type where
  team1 : String
  score1 : Rat
  team2 : String
  score2 : Rat
  matchId : Option CellVal
  deriving Repr, DecidableEq

/-- A surviving match row after the null filter and the integer coercion of
the MatchId column. -/
structure MatchRow : Type where
  team1 : String
  score1 : Rat
  team2 : String
  score2 : Rat
  matchId : Int
  deriving Repr, DecidableEq

/-- Error taxonomy of the normalizer (only the malformed-MatchId case is
reachable in the modelled slice). -/
inductive DataError : Type where
  | malformedData : DataError
  deriving Repr, DecidableEq

/-- Filter dropping rows whose MatchId is null (df[df[\x27Match \x27].notna()]). -/
def filterRows (rows : List RawRow) : List RawRow :=
  rows.filter (fun r => r.matchId.isSome)

/-- Coercion of the MatchId column to integers (astype(int)); any non-numeric
entry makes the whole conversion fail. -/
def coerceRows : List RawRow → Except DataError (List MatchRow)
  | [] => .ok []
  | r :: rs =>
    match r.matchId with
    | some (.cint z) =>
      match coerceRows rs with
      | .ok ms => .ok (⟨r.team1, r.score1, r.team2, r.score2, z⟩ :: ms)
      | .error e => .error e
    | _ => .error .malformedData

/-- The match-table normalizer: null-MatchId filter followed by the integer
coercion of the whole column. -/
def normalize (rows : List RawRow) : Except DataError (List MatchRow) :=
  coerceRows (filterRows rows)

/-- The swapped orientation of a match row (df_swap: columns renamed so that
Team1/Score1 and Team2/Score2 change places; MatchId kept). -/
def swap (m : MatchRow) : MatchRow :=
  ⟨m.team2, m.score2, m.team1, m.score1, m.matchId⟩

/-- The bidirectional canonical match list (pd.concat([df, df_swap])). -/
def dfFull (ms : List MatchRow) : List MatchRow :=
  ms ++ ms.map swap

/-- Outcome of scoreA against scoreB.  The source computes
WIN = where(s1 > s2, 1, 0) overridden by where(s1 == s2, 0.5, WIN),
which is: 0.5 on exact equality, else 1 on strictly greater, else 0. -/
def outcome (s1 s2 : Rat) : Rat :=
  if s1 = s2 then 1/2 else if s2 < s1 then 1 else 0

/-- The WIN value of one canonical match row. -/
def win (m : MatchRow) : Rat :=
  outcome m.score1 m.score2

/-- Insertion of a string into a (sorted) list, keeping order; compares the
underlying character lists lexicographically (the order pandas uses for
string labels). -/
def insertSorted (s : String) : List String → List String
  | [] => [s]
  | t :: ts => if s.data ≤ t.data then s :: t :: ts else t :: insertSorted s ts

/-- Insertion sort on strings. -/
def sortStrings (l : List String) : List String :=
  l.foldr insertSorted []

/-- Sorted list of the distinct elements of l; models the sorted unique
index/column labels of a pandas pivot table. -/
def uniqSorted (l : List String) : List String :=
  sortStrings l.dedup

/-- Rows of the bidirectional list selected by the pivot cell
(Team1 = a, Team2 = b) of the wins pivot table. -/
def winsSel (ms : List MatchRow) (a b : String) : List MatchRow :=
  (dfFull ms).filter (fun m => m.team1 = a ∧ m.team2 = b)

/-- One cell of the raw wins pivot table (aggfunc sum); none models the NaN
of a (Team1, Team2) combination with no underlying rows. -/
def winsCell (ms : List MatchRow) (a b : String) : Option Rat :=
  if winsSel ms a b = [] then none else some (((winsSel ms a b).map win).sum)

/-- Row labels of the wins pivot table. -/
def winsIndex (ms : List MatchRow) : List String :=
  uniqSorted ((dfFull ms).map (fun m => m.team1))

/-- Column labels of the wins pivot table. -/
def winsCols (ms : List MatchRow) : List String :=
  uniqSorted ((dfFull ms).map (fun m => m.team2))

/-- One row of the merged alternative-analysis table: a canonical match row
joined with one (Alt_Team, Alt_Score) side record sharing its MatchId. -/
structure AltRow : Type where
  team1 : String
  score1 : Rat
  team2 : String
  score2 : Rat
  matchId : Int
  altTeam : String
  altScore : Rat
  deriving Repr, DecidableEq

/-- All bidirectional rows sharing a given MatchId; these are the join
partners contributed by df_alter (which keeps Match/Team1/Score1 of every
bidirectional row, renamed to Match/Alt_Team/Alt_Score). -/
def matchRows (ms : List MatchRow) (c : Int) : List MatchRow :=
  (dfFull ms).filter (fun p => p.matchId = c)

/-- The inner merge of df_full with df_alter on the Match column. -/
def altMerge (ms : List MatchRow) : List AltRow :=
  (dfFull ms).flatMap (fun m =>
    (matchRows ms m.matchId).map (fun p =>
      ⟨m.team1, m.score1, m.team2, m.score2, m.matchId, p.team1, p.score1⟩))

/-- The Alt_WIN value of one joined row (same outcome rule, Score1 against
Alt_Score). -/
def altWin (r : AltRow) : Rat :=
  outcome r.score1 r.altScore

/-- The joined table after removing self-comparison rows (Team1 = Alt_Team). -/
def altFiltered (ms : List MatchRow) : List AltRow :=
  (altMerge ms).filter (fun r => r.team1 ≠ r.altTeam)

/-- Rows selected by the pivot cell (Team1 = a, Alt_Team = b) of the
alternative-wins pivot table. -/
def altSel (ms : List MatchRow) (a b : String) : List AltRow :=
  (altFiltered ms).filter (fun r => r.team1 = a ∧ r.altTeam = b)

/-- One cell of the alternative-wins pivot table (aggfunc sum). -/
def altSumCell (ms : List MatchRow) (a b : String) : Option Rat :=
  if altSel ms a b = [] then none else some (((altSel ms a b).map altWin).sum)

/-- One cell of the game-count pivot table (aggfunc count). -/
def altCntCell (ms : List MatchRow) (a b : String) : Option Nat :=
  if altSel ms a b = [] then none else some ((altSel ms a b).length)

/-- Rounding of a rational to the nearest integer, halves to the even
neighbour; models numpy/pandas round on exact values. -/
def roundHalfEven (q : Rat) : Int :=
  if q - ⌊q⌋ = 1/2 then (if ⌊q⌋ % 2 = 0 then ⌊q⌋ else ⌊q⌋ + 1) else round q

/-- Rounding to 2 decimal places (DataFrame.round(2)). -/
def round2 (q : Rat) : Rat :=
  (roundHalfEven (100 * q) : Rat) / 100

/-- One cell of the normalized alternative win-rate matrix:
df_alt_wins.div(game_counts) followed by round(2).  The two pivots are built
from the same selection, so a cell is defined in one iff in the other. -/
def altRateCell (ms : List MatchRow) (a b : String) : Option Rat :=
  match altSumCell ms a b, altCntCell ms a b with
  | some s, some c => some (round2 (s / (c : Rat)))
  | _, _ => none

/-- Row labels of the alternative-wins pivot table. -/
def altIndex (ms : List MatchRow) : List String :=
  uniqSorted ((altFiltered ms).map (fun r => r.team1))

/-- Column labels of the alternative-wins pivot table. -/
def altCols (ms : List MatchRow) : List String :=
  uniqSorted ((altFiltered ms).map (fun r => r.altTeam))

/-- The defined cells of one row of the alternative win-rate matrix, taken
across the opponent columns (pandas skips NaN cells in mean). -/
def strengthRowCells (ms : List MatchRow) (a : String) : List Rat :=
  (altCols ms).filterMap (fun b => altRateCell ms a b)

/-- Per-team Strength of the /strength endpoint: df_alt_wins.mean(axis=1),
the mean of the defined cells of the row of that team in the win-rate matrix. -/
def strengthScore (ms : List MatchRow) (a : String) : Rat :=
  (strengthRowCells ms a).sum / ((strengthRowCells ms a).length : Rat)

/-- One cell of the schedule-strength difference matrix
df_diff = df_wins - df_alt_wins; pandas alignment makes the difference NaN as
soon as either operand cell is absent. -/
def diffCell (ms : List MatchRow) (a b : String) : Option Rat :=
  match winsCell ms a b, altRateCell ms a b with
  | some w, some r => some (w - r)
  | _, _ => none

/-- Column labels of the difference matrix: union of both column sets. -/
def diffCols (ms : List MatchRow) : List String :=
  uniqSorted (winsCols ms ++ altCols ms)

/-- Row labels of the difference matrix: union of both index sets. -/
def diffIndex (ms : List MatchRow) : List String :=
  uniqSorted (winsIndex ms ++ altIndex ms)

/-- The defined cells of one row of the difference matrix. -/
def diffRowCells (ms : List MatchRow) (a : String) : List Rat :=
  (diffCols ms).filterMap (fun b => diffCell ms a b)

/-- Per-team Strength of the /schedule_strength endpoint:
df_diff.sum(axis=1), the NaN-skipping sum of the row of that team in df_diff. -/
def schedStrength (ms : List MatchRow) (a : String) : Rat :=
  (diffRowCells ms a).sum

/-- Average rank of v inside vals, descending (pandas
Series.rank(ascending=False) with the default average method): the count of
strictly larger entries plus the average position within the tied block. -/
def rankAvg (vals : List Rat) (v : Rat) : Rat :=
  ((vals.countP (fun w => v < w) : Rat)) + (((vals.countP (fun w => w = v) : Rat)) + 1) / 2

/-- Truncation of a rational toward zero (numpy astype(int) on floats). -/
def truncInt (q : Rat) : Int :=
  if 0 ≤ q then ⌊q⌋ else -⌊-q⌋

/-- The Rank column of the /strength endpoint: rank of the Strength column,
descending, truncated to integer. -/
def strengthRank (ms : List MatchRow) (a : String) : Int :=
  truncInt (rankAvg ((altIndex ms).map (strengthScore ms)) (strengthScore ms a))

/-- The Rank column of the /schedule_strength endpoint. -/
def schedRank (ms : List MatchRow) (a : String) : Int :=
  truncInt (rankAvg ((diffIndex ms).map (schedStrength ms)) (schedStrength ms a))

/-- A matrix cell after the fill-sentinel step (fillna(-1)). -/
def strengthMatrixCell (ms : List MatchRow) (a b : String) : Rat :=
  (altRateCell ms a b).getD (-1)

/-- A wins-matrix cell after fillna(-1). -/
def winsMatrixCell (ms : List MatchRow) (a b : String) : Rat :=
  (winsCell ms a b).getD (-1)

/-- A difference-matrix cell after fillna(-1). -/
def diffMatrixCell (ms : List MatchRow) (a b : String) : Rat :=
  (diffCell ms a b).getD (-1)

/-- Externally visible result of the /strength computation (teams list, the
strength matrix records and the matrix_wins records). -/
structure StrengthResult : Type where
  teams : List String
  matrix : List (String × List Rat × Rat × Int)
  matrixWins : List (String × List Rat)
  deriving Repr, DecidableEq

/-- Assembly of the /strength response from the surviving match rows. -/
def strengthResult (ms : List MatchRow) : StrengthResult where
  teams := altCols ms
  matrix := (altIndex ms).map (fun a =>
    (a, (altCols ms).map (fun b => strengthMatrixCell ms a b),
      strengthScore ms a, strengthRank ms a))
  matrixWins := (winsIndex ms).map (fun a =>
    (a, (winsCols ms).map (fun b => winsMatrixCell ms a b)))

/-- The whole /strength computation from the raw feed: normalize, then build
the result; a normalizer error aborts the computation. -/
def computeStrength (rows : List RawRow) : Except DataError StrengthResult :=
  (normalize rows).map strengthResult

/-- The precondition the spec documents for the self-join: each MatchId
occurs in exactly one raw match row. -/
def uniqueIds (ms : List MatchRow) : Prop :=
  ms.Pairwise (fun r s => r.matchId ≠ s.matchId)

instance (ms : List MatchRow) : Decidable (uniqueIds ms) :=
  inferInstanceAs (Decidable (ms.Pairwise _))

/-- Scored-for of one team: sum of the Score1 column of its bidirectional
rows (groupby Team1, sum). -/
def scoredFor (ms : List MatchRow) (t : String) : Rat :=
  (((dfFull ms).filter (fun m => m.team1 = t)).map (fun m => m.score1)).sum

/-- Scored-against of one team: sum of the Score2 column of its
bidirectional rows. -/
def scoredAgainst (ms : List MatchRow) (t : String) : Rat :=
  (((dfFull ms).filter (fun m => m.team1 = t)).map (fun m => m.score2)).sum

/-- Index of the for/against grouping: the distinct Team1 values. -/
def faIndex (ms : List MatchRow) : List String :=
  uniqSorted ((dfFull ms).map (fun m => m.team1))

/-- State of the SimpleCache collaborator: TTL, the key to (value, timestamp)
dictionary and the set of in-progress coalescing guards.  The asyncio locks
carry no data of their own, so a guard is modelled by the presence of its
key. -/
structure CacheState (V : Type) : Type where
  ttl : Rat
  entries : List (String × V × Rat)
  inProgress : List String
  deriving Repr, DecidableEq

/-- Dictionary lookup in the entries association list. -/
def cacheLookup {V : Type} (c : List (String × V × Rat)) (k : String) : Option (V × Rat) :=
  (c.find? (fun e => e.1 = k)).map (fun e => e.2)

/-- Dictionary deletion (del cache[key]). -/
def cacheErase {V : Type} (c : List (String × V × Rat)) (k : String) : List (String × V × Rat) :=
  c.filter (fun e => ¬ e.1 = k)

/-- Dictionary update (cache[key] = (value, now)). -/
def cacheInsert {V : Type} (c : List (String × V × Rat)) (k : String) (v : V) (t : Rat) :
    List (String × V × Rat) :=
  cacheErase c k ++ [(k, v, t)]

/-- SimpleCache.get: return the fresh value if any; delete and miss when the
entry has expired. -/
def cacheGet {V : Type} (s : CacheState V) (now : Rat) (k : String) :
    Option V × CacheState V :=
  match cacheLookup s.entries k with
  | none => (none, s)
  | some (v, ts) =>
    if now - ts > s.ttl then (none, { s with entries := cacheErase s.entries k })
    else (some v, s)

/-- SimpleCache.set: store the value with the current timestamp. -/
def cacheSet {V : Type} (s : CacheState V) (now : Rat) (k : String) (v : V) : CacheState V :=
  { s with entries := cacheInsert s.entries k v now }

/-- Removal of the in-progress guard of a key (del self.in_progress[key]). -/
def dropGuard {V : Type} (s : CacheState V) (k : String) : CacheState V :=
  { s with inProgress := s.inProgress.filter (fun x => ¬ x = k) }

/-- SimpleCache.get_or_compute under sequential execution: first get, guard
registration, double-check get, then the compute step whose outcome is the
given Except value; the ok branch stores before the finally-block removes the
guard, the error branch only removes the guard and re-raises. -/
def getOrCompute {V E : Type} (s : CacheState V) (now : Rat) (k : String)
    (compute : Except E V) : Except E V × CacheState V :=
  match cacheGet s now k with
  | (some v, s1) => (.ok v, s1)
  | (none, s1) =>
    let s2 : CacheState V :=
      if k ∈ s1.inProgress then s1 else { s1 with inProgress := k :: s1.inProgress }
    match cacheGet s2 now k with
    | (some v, s3) => (.ok v, s3)
    | (none, s3) =>
      match compute with
      | .ok v => (.ok v, dropGuard (cacheSet s3 now k v) k)
      | .error e => (.error e, dropGuard s3 k)

/-- Modelled from the spec (§4.3 step 7, the per-pair-strength variant): the
per-team Strength stated as the mean, across all opponent columns, of the
row of that team in the delta matrix Diff = W - AltWinRate. -/
def specDiffRowMean (ms : List MatchRow) (a : String) : Rat :=
  (diffRowCells ms a).sum / ((diffRowCells ms a).length : Rat)

/-- Direct per-pair outcome computation: the win rate of a against b
recomputed straight from the games of the pair itself (the algebraic reduction of
the join that the spec derives), with the same count normalization and
rounding as the pipeline. -/
def directRate (ms : List MatchRow) (a b : String) : Option Rat :=
  if winsSel ms a b = [] then none
  else some (round2 ((((winsSel ms a b).map win).sum) / ((winsSel ms a b).length : Rat)))

/-- The joined row a canonical match contributes after the self filter when
MatchIds are unique: its surviving partner record is the side of its own opponent, so
Alt_Team is Team2 and Alt_Score is Score2. -/
def altPartnerRow (m : MatchRow) : AltRow :=
  ⟨m.team1, m.score1, m.team2, m.score2, m.matchId, m.team2, m.score2⟩

/-- Fixture from the concrete scenario of the spec: matches
(1: A 10 B 8), (2: B 5 C 5), (3: A 7 C 9). -/
def exSpec : List MatchRow :=
  [⟨"A", 10, "B", 8, 1⟩, ⟨"B", 5, "C", 5, 2⟩, ⟨"A", 7, "C", 9, 3⟩]

/-- Fixture with a single decisive match. -/
def exOne : List MatchRow :=
  [⟨"A", 10, "B", 8, 1⟩]

/-- Fixture where A beats B twice, giving distinct schedule strengths. -/
def exTwo : List MatchRow :=
  [⟨"A", 10, "B", 8, 1⟩, ⟨"A", 3, "B", 0, 2⟩]

/-- Degenerate fixture: one match of a team against itself. -/
def exSelf : List MatchRow :=
  [⟨"A", 5, "A", 5, 1⟩]

/-- Raw fixture whose only row has a malformed (non-numeric) MatchId. -/
def exBadRaw : List RawRow :=
  [⟨"A", 1, "B", 2, some (.cstr "abc")⟩]

/-- Raw fixture whose only row has a null MatchId. -/
def exNullRaw : List RawRow :=
  [⟨"A", 1, "B", 2, none⟩]

lemma mem_insertSorted {a s : String} {l : List String} :
    a ∈ insertSorted s l ↔ a = s ∨ a ∈ l := by
  induction l with
  | nil => simp [insertSorted]
  | cons t ts ih =>
    by_cases h : s.data ≤ t.data
    · simp [insertSorted, h]
    · simp only [insertSorted, if_neg h, List.mem_cons, ih]
      tauto

lemma mem_sortStrings {a : String} {l : List String} : a ∈ sortStrings l ↔ a ∈ l := by
  induction l with
  | nil => simp [sortStrings]
  | cons t ts ih =>
    show a ∈ insertSorted t (sortStrings ts) ↔ _
    rw [mem_insertSorted, ih]
    simp

lemma nodup_insertSorted {s : String} {l : List String} (hl : l.Nodup) (hs : s ∉ l) :
    (insertSorted s l).Nodup := by
  induction l with
  | nil => simp [insertSorted]
  | cons t ts ih =>
    rcases List.nodup_cons.mp hl with ⟨ht, hts⟩
    by_cases h : s.data ≤ t.data
    · simp only [insertSorted, if_pos h]
      exact List.nodup_cons.mpr ⟨hs, hl⟩
    · simp only [insertSorted, if_neg h]
      refine List.nodup_cons.mpr ⟨?_, ih hts (fun hmem => hs (List.mem_cons_of_mem _ hmem))⟩
      intro hmem
      rcases mem_insertSorted.mp hmem with rfl | hmem2
      · exact hs (List.mem_cons_self _ _)
      · exact ht hmem2

lemma nodup_sortStrings {l : List String} (h : l.Nodup) : (sortStrings l).Nodup := by
  induction l with
  | nil => simp [sortStrings]
  | cons t ts ih =>
    rcases List.nodup_cons.mp h with ⟨ht, hts⟩
    exact nodup_insertSorted (ih hts) (fun hmem => ht (mem_sortStrings.mp hmem))

lemma mem_uniqSorted {a : String} {l : List String} : a ∈ uniqSorted l ↔ a ∈ l := by
  unfold uniqSorted
  rw [mem_sortStrings, List.mem_dedup]

lemma nodup_uniqSorted (l : List String) : (uniqSorted l).Nodup :=
  nodup_sortStrings l.nodup_dedup

lemma sum_map_add {α : Type} (l : List α) (g h : α → Rat) :
    (l.map (fun x => g x + h x)).sum = (l.map g).sum + (l.map h).sum := by
  induction l with
  | nil => simp
  | cons x xs ih =>
    simp [ih]
    ring

lemma sum_ite_single (keys : List String) (x : String) (c : Rat) (hnd : keys.Nodup) :
    (keys.map (fun t => if x = t then c else 0)).sum = if x ∈ keys then c else 0 := by
  induction keys with
  | nil => simp
  | cons k ks ih =>
    rcases List.nodup_cons.mp hnd with ⟨hk, hks⟩
    by_cases hxk : x = k
    · subst hxk
      have hx : x ∉ ks := hk
      simp [ih hks, hx]
    · simp [hxk, ih hks]

lemma sum_fiber (keys : List String) (l : List MatchRow) (f : MatchRow → Rat)
    (hnd : keys.Nodup) (hcov : ∀ r ∈ l, r.team1 ∈ keys) :
    (keys.map (fun t => ((l.filter (fun r => r.team1 = t)).map f).sum)).sum
      = (l.map f).sum := by
  induction l with
  | nil => simp
  | cons r rs ih =>
    have hcov2 : ∀ s ∈ rs, s.team1 ∈ keys := fun s hs => hcov s (List.mem_cons_of_mem _ hs)
    have hr : r.team1 ∈ keys := hcov r (List.mem_cons_self _ _)
    have step : ∀ t ∈ keys, (((r :: rs).filter (fun s => s.team1 = t)).map f).sum
        = (if r.team1 = t then f r else 0) + ((rs.filter (fun s => s.team1 = t)).map f).sum := by
      intro t _
      by_cases h : r.team1 = t <;> simp [List.filter_cons, h]
    rw [List.map_congr_left step, sum_map_add, sum_ite_single keys r.team1 (f r) hnd, if_pos hr,
      ih hcov2]
    simp

lemma countP_two_le {α : Type} (l : List α) (p q r : α → Bool)
    (hpq : ∀ x, ¬(p x = true ∧ q x = true))
    (hpr : ∀ x, p x = true → r x = true)
    (hqr : ∀ x, q x = true → r x = true) :
    l.countP p + l.countP q ≤ l.countP r := by
  induction l with
  | nil => simp
  | cons x xs ih =>
    simp only [List.countP_cons]
    rcases hp : p x with _ | _ <;> rcases hq : q x with _ | _
    · simp
      omega
    · have := hqr x hq
      simp [this]
      omega
    · have := hpr x hp
      simp [this]
      omega
    · exact absurd ⟨hp, hq⟩ (hpq x)

lemma rankAvg_le_of_lt (vals : List Rat) {v w : Rat} (h : w < v) :
    rankAvg vals v ≤ rankAvg vals w := by
  have key : vals.countP (fun x => v < x) + vals.countP (fun x => x = v)
      ≤ vals.countP (fun x => w < x) := by
    apply countP_two_le
    · intro x hx
      rcases hx with ⟨h1, h2⟩
      rw [decide_eq_true_eq] at h1 h2
      exact absurd (h2 ▸ h1) (lt_irrefl v)
    · intro x h1
      rw [decide_eq_true_eq] at h1 ⊢
      exact lt_trans h h1
    · intro x h2
      rw [decide_eq_true_eq] at h2 ⊢
      exact h2 ▸ h
  unfold rankAvg
  have hc : ((vals.countP (fun x => v < x) : Rat)) + (vals.countP (fun x => x = v) : Rat)
      ≤ (vals.countP (fun x => w < x) : Rat) := by
    exact_mod_cast key
  have he2 : (0 : Rat) ≤ (vals.countP (fun x => x = w) : Rat) := by positivity
  linarith

lemma truncInt_mono {q r : Rat} (h : q ≤ r) : truncInt q ≤ truncInt r := by
  unfold truncInt
  by_cases hq : 0 ≤ q <;> by_cases hr : 0 ≤ r
  · simp only [if_pos hq, if_pos hr]
    exact Int.floor_le_floor h
  · exact absurd (le_trans hq h) hr
  · simp only [if_neg hq, if_pos hr]
    have h1 : (0 : Int) ≤ ⌊-q⌋ := by
      rw [Int.le_floor]
      push_cast
      linarith [not_le.mp hq]
    have h2 : (0 : Int) ≤ ⌊r⌋ := by
      rw [Int.le_floor]
      exact_mod_cast hr
    omega
  · simp only [if_neg hq, if_neg hr]
    have h1 : ⌊-r⌋ ≤ ⌊-q⌋ := Int.floor_le_floor (by linarith)
    omega

lemma swap_matchId (m : MatchRow) : (swap m).matchId = m.matchId := rfl

lemma filter_id_single {ms : List MatchRow} (hu : uniqueIds ms) {r : MatchRow} (hr : r ∈ ms) :
    ms.filter (fun p => p.matchId = r.matchId) = [r] := by
  induction ms with
  | nil => cases hr
  | cons h t ih =>
    rcases List.pairwise_cons.mp hu with ⟨hh, ht⟩
    rcases List.mem_cons.mp hr with rfl | hrt
    · have hnil : t.filter (fun p => p.matchId = r.matchId) = [] := by
        apply List.filter_eq_nil_iff.mpr
        intro a ha
        simp only [decide_eq_true_eq]
        intro hco
        exact (hh a ha) hco.symm
      simp [List.filter_cons, hnil]
    · have hne : ¬(h.matchId = r.matchId) := hh r hrt
      simp only [List.filter_cons, decide_eq_true_eq, if_neg hne]
      exact ih ht hrt

lemma filter_swap_comm (ms : List MatchRow) (c : Int) :
    (ms.map swap).filter (fun p => p.matchId = c)
      = (ms.filter (fun p => p.matchId = c)).map swap := by
  induction ms with
  | nil => rfl
  | cons m t ih =>
    by_cases h : m.matchId = c
    · simp [List.filter_cons, swap_matchId, h, ih]
    · simp [List.filter_cons, swap_matchId, h, ih]

lemma matchRows_eq {ms : List MatchRow} (hu : uniqueIds ms) {r : MatchRow} (hr : r ∈ ms) :
    matchRows ms r.matchId = [r, swap r] := by
  unfold matchRows dfFull
  rw [List.filter_append, filter_swap_comm, filter_id_single hu hr]
  rfl

lemma dfFull_cases {ms : List MatchRow} {m : MatchRow} (hm : m ∈ dfFull ms) :
    ∃ r ∈ ms, m = r ∨ m = swap r := by
  rcases List.mem_append.mp hm with h | h
  · exact ⟨m, h, Or.inl rfl⟩
  · rcases List.mem_map.mp h with ⟨r, hr, rfl⟩
    exact ⟨r, hr, Or.inr rfl⟩

lemma flatMap_if_singleton {α β : Type} (l : List α) (p : α → Prop) [DecidablePred p]
    (g : α → β) :
    (l.flatMap (fun x => if p x then [g x] else [])) = (l.filter (fun x => p x)).map g := by
  induction l with
  | nil => rfl
  | cons x xs ih => by_cases h : p x <;> simp [List.filter_cons, h, ih]

lemma altSel_filter_pair (ms : List MatchRow) {a b : String} (hab : a ≠ b) :
    altSel ms a b = (altMerge ms).filter (fun x => x.team1 = a ∧ x.altTeam = b) := by
  unfold altSel altFiltered
  rw [List.filter_filter]
  apply List.filter_congr
  intro x _
  by_cases h2 : x.team1 = a ∧ x.altTeam = b
  · have hne : x.team1 ≠ x.altTeam := by
      rw [h2.1, h2.2]
      exact hab
    simp [h2.1, h2.2, hne, hab]
  · simp only [decide_eq_true_eq] at h2 ⊢
    simp [h2]

lemma altMerge_pair_eq {ms : List MatchRow} (hu : uniqueIds ms) {a b : String} (hab : a ≠ b) :
    (altMerge ms).filter (fun x => x.team1 = a ∧ x.altTeam = b)
      = (dfFull ms).flatMap
          (fun m => if m.team1 = a ∧ m.team2 = b then [altPartnerRow m] else []) := by
  unfold altMerge
  rw [List.filter_flatMap]
  apply List.flatMap_congr
  intro m hm
  rcases dfFull_cases hm with ⟨r, hr, hor⟩
  have hid : m.matchId = r.matchId := by
    rcases hor with rfl | rfl <;> rfl
  rw [hid, matchRows_eq hu hr]
  rcases hor with rfl | rfl
  · by_cases hA : m.team1 = a ∧ m.team2 = b
    · have hb : ¬(m.team1 = b) := fun e => hab (hA.1.symm.trans e)
      simp [List.filter_cons, swap, hA.1, hA.2, hb, hab, altPartnerRow]
    · have hX1 : m.team1 = a → ¬(m.team1 = b) := fun h1 h2 => hab (h1.symm.trans h2)
      have hX2 : m.team1 = a → ¬(m.team2 = b) := fun h1 h2 => hA ⟨h1, h2⟩
      simp [List.filter_cons, swap, hX2, hA]
      exact hX1
  · by_cases hA : (swap r).team1 = a ∧ (swap r).team2 = b
    · simp only [swap] at hA ⊢
      have hb : ¬(r.team2 = b) := fun e => hab (hA.1.symm.trans e)
      simp [List.filter_cons, hA.1, hA.2, hb, hab, altPartnerRow]
    · simp only [swap] at hA ⊢
      have hX1 : r.team2 = a → ¬(r.team1 = b) := fun h1 h2 => hA ⟨h1, h2⟩
      have hX2 : r.team2 = a → ¬(r.team2 = b) := fun h1 h2 => hab (h1.symm.trans h2)
      simp [List.filter_cons, hX1, hA]
      exact hX2

lemma altSel_eq {ms : List MatchRow} (hu : uniqueIds ms) {a b : String} (hab : a ≠ b) :
    altSel ms a b = (winsSel ms a b).map altPartnerRow := by
  rw [altSel_filter_pair ms hab, altMerge_pair_eq hu hab,
    flatMap_if_singleton (dfFull ms) (fun m => m.team1 = a ∧ m.team2 = b) altPartnerRow]
  rfl

/-- C3: for every raw match row, the Outcome values of its two canonical
orientations sum to exactly 1; a tie (exact score equality) yields 0.5 and
0.5, a decisive match yields 1 and 0 in one of the two orders. -/
theorem outcome_pair_complementary (m : MatchRow) :
    win m + win (swap m) = 1
    ∧ (m.score1 = m.score2 → win m = 1/2 ∧ win (swap m) = 1/2)
    ∧ (m.score1 ≠ m.score2 →
        (win m = 1 ∧ win (swap m) = 0) ∨ (win m = 0 ∧ win (swap m) = 1)) := by
  unfold win swap outcome
  rcases lt_trichotomy m.score1 m.score2 with h | h | h
  · have h1 : m.score1 ≠ m.score2 := ne_of_lt h
    have h2 : ¬(m.score2 < m.score1) := not_lt.mpr (le_of_lt h)
    simp [h1, h1.symm, h, h2]
  · simp [h]
    norm_num
  · have h1 : m.score1 ≠ m.score2 := (ne_of_lt h).symm
    have h2 : ¬(m.score1 < m.score2) := not_lt.mpr (le_of_lt h)
    simp [h1, h1.symm, h, h2]

/-- Witness for C3 at the tie row (B 5 C 5) and the decisive row (A 10 B 8). -/
theorem outcome_pair_complementary_witness :
    (win ⟨"B", 5, "C", 5, 2⟩ = 1/2 ∧ win (swap ⟨"B", 5, "C", 5, 2⟩) = 1/2)
    ∧ ((win ⟨"A", 10, "B", 8, 1⟩ = 1 ∧ win (swap ⟨"A", 10, "B", 8, 1⟩) = 0)
        ∨ (win ⟨"A", 10, "B", 8, 1⟩ = 0 ∧ win (swap ⟨"A", 10, "B", 8, 1⟩) = 1)) := by
  constructor
  · exact (outcome_pair_complementary ⟨"B", 5, "C", 5, 2⟩).2.1 (by norm_num)
  · exact (outcome_pair_complementary ⟨"A", 10, "B", 8, 1⟩).2.2 (by norm_num)

lemma coerceRows_error {l : List RawRow} {r : RawRow} {s : String} (hr : r ∈ l)
    (hid : r.matchId = some (.cstr s)) :
    coerceRows l = .error .malformedData := by
  induction l with
  | nil => cases hr
  | cons x xs ih =>
    rcases List.mem_cons.mp hr with rfl | hxs
    · simp [coerceRows, hid]
    · cases hx : x.matchId with
      | none => simp [coerceRows, hx]
      | some v =>
        cases v with
        | cint z => simp [coerceRows, hx, ih hxs]
        | cstr t => simp [coerceRows, hx]

/-- C7: a surviving row with a present but non-numeric MatchId makes the
whole normalization fail with MalformedDataError, while a row with a null
MatchId is silently dropped before the coercion. -/
theorem malformed_matchId_fatal (rows : List RawRow) (r : RawRow) (s : String)
    (hr : r ∈ rows) (hid : r.matchId = some (.cstr s)) :
    normalize rows = .error .malformedData
    ∧ ∀ r0 : RawRow, r0.matchId = none → normalize (r0 :: rows) = normalize rows := by
  constructor
  · apply coerceRows_error (l := filterRows rows) (r := r) _ hid
    exact List.mem_filter.mpr ⟨hr, by simp [hid]⟩
  · intro r0 h0
    unfold normalize filterRows
    simp [List.filter_cons, h0]

/-- Witness for C7 at a one-row feed whose MatchId cell holds the text abc. -/
theorem malformed_matchId_fatal_witness :
    normalize exBadRaw = .error .malformedData
    ∧ ∀ r0 : RawRow, r0.matchId = none → normalize (r0 :: exBadRaw) = normalize exBadRaw :=
  malformed_matchId_fatal exBadRaw ⟨"A", 1, "B", 2, some (.cstr "abc")⟩ "abc"
    (by simp [exBadRaw]) rfl

/-- C8: when zero rows survive the filtering, the strength computation
completes and returns empty teams, an empty strength matrix and an empty
wins matrix instead of failing. -/
theorem empty_input_graceful (rows : List RawRow) (h : normalize rows = .ok []) :
    computeStrength rows = .ok ⟨[], [], []⟩ := by
  unfold computeStrength
  rw [h]
  rfl

/-- Witness for C8 at a feed whose only row has a null MatchId. -/
theorem empty_input_graceful_witness : computeStrength exNullRaw = .ok ⟨[], [], []⟩ :=
  empty_input_graceful exNullRaw rfl

/-- C4: summing ScoredFor plus ScoredAgainst over all teams of the
for/against aggregation equals twice the sum of all raw scores of the
surviving match rows. -/
theorem for_against_round_trip (ms : List MatchRow) :
    ((faIndex ms).map (fun t => scoredFor ms t + scoredAgainst ms t)).sum
      = 2 * (ms.map (fun m => m.score1 + m.score2)).sum := by
  have hnd : (faIndex ms).Nodup := nodup_uniqSorted _
  have hcov : ∀ r ∈ dfFull ms, r.team1 ∈ faIndex ms := by
    intro r hr
    exact mem_uniqSorted.mpr (List.mem_map_of_mem _ hr)
  have hsplit : ∀ t ∈ faIndex ms, scoredFor ms t + scoredAgainst ms t
      = (((dfFull ms).filter (fun r => r.team1 = t)).map (fun r => r.score1 + r.score2)).sum := by
    intro t _
    unfold scoredFor scoredAgainst
    rw [sum_map_add]
  rw [List.map_congr_left hsplit, sum_fiber (faIndex ms) (dfFull ms) _ hnd hcov]
  unfold dfFull
  rw [List.map_append, List.sum_append, List.map_map]
  have hcomp : ((fun r : MatchRow => r.score1 + r.score2) ∘ swap)
      = fun r : MatchRow => r.score2 + r.score1 := rfl
  rw [hcomp]
  have h2 : (ms.map (fun r : MatchRow => r.score2 + r.score1)).sum
      = (ms.map (fun r : MatchRow => r.score1 + r.score2)).sum := by
    rw [List.map_congr_left (fun r _ => add_comm r.score2 r.score1)]
  rw [h2]
  ring

/-- C5: the rank assignment (average rank descending, truncated to integer)
is monotone in both endpoint variants: a strictly larger Strength never gets
a larger Rank number, and equal Strengths get equal Ranks. -/
theorem rank_monotone (ms : List MatchRow) (a b : String) :
    (strengthScore ms b < strengthScore ms a → strengthRank ms a ≤ strengthRank ms b)
    ∧ (strengthScore ms a = strengthScore ms b → strengthRank ms a = strengthRank ms b)
    ∧ (schedStrength ms b < schedStrength ms a → schedRank ms a ≤ schedRank ms b)
    ∧ (schedStrength ms a = schedStrength ms b → schedRank ms a = schedRank ms b) := by
  refine ⟨?_, ?_, ?_, ?_⟩
  · intro h
    exact truncInt_mono (rankAvg_le_of_lt _ h)
  · intro h
    unfold strengthRank
    rw [h]
  · intro h
    exact truncInt_mono (rankAvg_le_of_lt _ h)
  · intro h
    unfold schedRank
    rw [h]

lemma exTwo_altSel_AA : altSel exTwo "A" "A" = [] := by
  simp +decide [altSel, altFiltered, altMerge, matchRows, dfFull, exTwo, swap,
    List.filter, List.flatMap]

lemma exTwo_altSel_AB :
    altSel exTwo "A" "B" = [⟨"A", 10, "B", 8, 1, "B", 8⟩, ⟨"A", 3, "B", 0, 2, "B", 0⟩] := by
  simp +decide [altSel, altFiltered, altMerge, matchRows, dfFull, exTwo, swap,
    List.filter, List.flatMap]

lemma exTwo_altSel_BA :
    altSel exTwo "B" "A" = [⟨"B", 8, "A", 10, 1, "A", 10⟩, ⟨"B", 0, "A", 3, 2, "A", 3⟩] := by
  simp +decide [altSel, altFiltered, altMerge, matchRows, dfFull, exTwo, swap,
    List.filter, List.flatMap]

lemma exTwo_altSel_BB : altSel exTwo "B" "B" = [] := by
  simp +decide [altSel, altFiltered, altMerge, matchRows, dfFull, exTwo, swap,
    List.filter, List.flatMap]

lemma exTwo_altCols : altCols exTwo = ["A", "B"] := by
  simp +decide [altCols, altFiltered, altMerge, matchRows, dfFull, exTwo, swap,
    List.filter, List.flatMap, uniqSorted, sortStrings, insertSorted, List.dedup, List.foldr]

lemma exTwo_wins_AA : winsSel exTwo "A" "A" = [] := by
  simp +decide [winsSel, dfFull, exTwo, swap, List.filter]

lemma exTwo_wins_AB : winsSel exTwo "A" "B" = [⟨"A", 10, "B", 8, 1⟩, ⟨"A", 3, "B", 0, 2⟩] := by
  simp +decide [winsSel, dfFull, exTwo, swap, List.filter]

lemma exTwo_wins_BA : winsSel exTwo "B" "A" = [⟨"B", 8, "A", 10, 1⟩, ⟨"B", 0, "A", 3, 2⟩] := by
  simp +decide [winsSel, dfFull, exTwo, swap, List.filter]

lemma exTwo_wins_BB : winsSel exTwo "B" "B" = [] := by
  simp +decide [winsSel, dfFull, exTwo, swap, List.filter]

lemma exTwo_diffCols : diffCols exTwo = ["A", "B"] := by
  simp +decide [diffCols, winsCols, altCols, altFiltered, altMerge, matchRows, dfFull, exTwo,
    swap, List.filter, List.flatMap, uniqSorted, sortStrings, insertSorted, List.dedup,
    List.foldr]

lemma exTwo_strengthA : strengthScore exTwo "A" = 1 := by
  norm_num [strengthScore, strengthRowCells, exTwo_altCols, altRateCell, altSumCell,
    altCntCell, exTwo_altSel_AA, exTwo_altSel_AB, altWin, outcome, round2, roundHalfEven,
    List.filterMap_cons, List.cons_ne_nil]

lemma exTwo_strengthB : strengthScore exTwo "B" = 0 := by
  norm_num [strengthScore, strengthRowCells, exTwo_altCols, altRateCell, altSumCell,
    altCntCell, exTwo_altSel_BA, exTwo_altSel_BB, altWin, outcome, round2, roundHalfEven,
    List.filterMap_cons, List.cons_ne_nil]

lemma exTwo_schedA : schedStrength exTwo "A" = 1 := by
  norm_num [schedStrength, diffRowCells, exTwo_diffCols, diffCell, winsCell, exTwo_wins_AA,
    exTwo_wins_AB, altRateCell, altSumCell, altCntCell, exTwo_altSel_AA, exTwo_altSel_AB,
    altWin, win, outcome, round2, roundHalfEven, List.filterMap_cons, List.cons_ne_nil]

lemma exTwo_schedB : schedStrength exTwo "B" = 0 := by
  norm_num [schedStrength, diffRowCells, exTwo_diffCols, diffCell, winsCell, exTwo_wins_BA,
    exTwo_wins_BB, altRateCell, altSumCell, altCntCell, exTwo_altSel_BA, exTwo_altSel_BB,
    altWin, win, outcome, round2, roundHalfEven, List.filterMap_cons, List.cons_ne_nil]

lemma outcome_nonneg (s1 s2 : Rat) : 0 ≤ outcome s1 s2 := by
  unfold outcome
  split_ifs <;> norm_num

lemma outcome_le_one (s1 s2 : Rat) : outcome s1 s2 ≤ 1 := by
  unfold outcome
  split_ifs <;> norm_num

lemma roundHalfEven_bounds {x : Rat} (h0 : 0 ≤ x) (h1 : x ≤ 100) :
    0 ≤ roundHalfEven x ∧ roundHalfEven x ≤ 100 := by
  unfold roundHalfEven
  have hf0 : (0 : Int) ≤ ⌊x⌋ := by
    rw [Int.le_floor]
    exact_mod_cast h0
  split_ifs with hfr hev
  · refine ⟨hf0, ?_⟩
    have hc : (⌊x⌋ : Rat) < 100 := by
      have hx : (⌊x⌋ : Rat) = x - 1/2 := by linarith
      linarith
    exact_mod_cast le_of_lt hc
  · have hc : (⌊x⌋ : Rat) < 100 := by
      have hx : (⌊x⌋ : Rat) = x - 1/2 := by linarith
      linarith
    have hc2 : ⌊x⌋ < (100 : Int) := by exact_mod_cast hc
    omega
  · rw [round_eq]
    constructor
    · have : ⌊x⌋ ≤ ⌊x + 1/2⌋ := Int.floor_le_floor (by linarith)
      omega
    · have hm : ⌊x + 1/2⌋ ≤ ⌊(201 : Rat)/2⌋ := Int.floor_le_floor (by linarith)
      have he : ⌊(201 : Rat)/2⌋ = 100 := by
        rw [Int.floor_eq_iff]
        norm_num
      omega

lemma round2_bounds {q : Rat} (h0 : 0 ≤ q) (h1 : q ≤ 1) :
    0 ≤ round2 q ∧ round2 q ≤ 1 := by
  unfold round2
  obtain ⟨l, u⟩ := roundHalfEven_bounds (x := 100 * q) (by linarith) (by linarith)
  constructor
  · apply div_nonneg _ (by norm_num)
    exact_mod_cast l
  · rw [div_le_one (by norm_num)]
    exact_mod_cast u

/-- C9: every opponent-column cell of the /strength matrix is either the
sentinel -1 or a value in the closed interval from 0 to 1. -/
theorem strength_cells_bounded (ms : List MatchRow) (a b : String) :
    strengthMatrixCell ms a b = -1
    ∨ (0 ≤ strengthMatrixCell ms a b ∧ strengthMatrixCell ms a b ≤ 1) := by
  by_cases h : altSel ms a b = []
  · left
    simp [strengthMatrixCell, altRateCell, altSumCell, altCntCell, h]
  · right
    have hlen : 0 < (altSel ms a b).length := List.length_pos.mpr h
    have hlenq : (0 : Rat) < ((altSel ms a b).length : Rat) := by exact_mod_cast hlen
    have hs0 : 0 ≤ ((altSel ms a b).map altWin).sum := by
      apply List.sum_nonneg
      intro x hx
      rcases List.mem_map.mp hx with ⟨r, _, rfl⟩
      exact outcome_nonneg _ _
    have hs1 : ((altSel ms a b).map altWin).sum ≤ ((altSel ms a b).length : Rat) := by
      have := List.sum_le_card_nsmul ((altSel ms a b).map altWin) 1 (by
        intro x hx
        rcases List.mem_map.mp hx with ⟨r, _, rfl⟩
        exact outcome_le_one _ _)
      simpa [nsmul_eq_mul] using this
    have hq0 : 0 ≤ ((altSel ms a b).map altWin).sum / ((altSel ms a b).length : Rat) :=
      div_nonneg hs0 (le_of_lt hlenq)
    have hq1 : ((altSel ms a b).map altWin).sum / ((altSel ms a b).length : Rat) ≤ 1 :=
      (div_le_one hlenq).mpr hs1
    obtain ⟨l, u⟩ := round2_bounds hq0 hq1
    have hcell : strengthMatrixCell ms a b
        = round2 (((altSel ms a b).map altWin).sum / ((altSel ms a b).length : Rat)) := by
      simp [strengthMatrixCell, altRateCell, altSumCell, altCntCell, h]
    rw [hcell]
    exact ⟨l, u⟩

/-- Witness for C5 on the two-match fixture, where A is strictly stronger
than B under both reducers. -/
theorem rank_monotone_witness :
    strengthRank exTwo "A" ≤ strengthRank exTwo "B"
    ∧ strengthRank exTwo "A" = strengthRank exTwo "A"
    ∧ schedRank exTwo "A" ≤ schedRank exTwo "B"
    ∧ schedRank exTwo "A" = schedRank exTwo "A" := by
  refine ⟨(rank_monotone exTwo "A" "B").1 ?_, (rank_monotone exTwo "A" "A").2.1 rfl,
    (rank_monotone exTwo "A" "B").2.2.1 ?_, (rank_monotone exTwo "A" "A").2.2.2 rfl⟩
  · rw [exTwo_strengthA, exTwo_strengthB]
    norm_num
  · rw [exTwo_schedA, exTwo_schedB]
    norm_num

/-- Counterexample to C2 as stated: on a self-match (one row A 5 A 5 with a
unique MatchId) the join-and-filter drops both partner rows, so it is not
equivalent to the direct per-pair outcome computation, which still sees the
two tie orientations. -/
theorem join_reduction_cex :
    uniqueIds exSelf
    ∧ (altSel exSelf "A" "A").map altWin ≠ (winsSel exSelf "A" "A").map win := by
  constructor
  · decide
  · have hL : altSel exSelf "A" "A" = [] := by
      simp +decide [altSel, altFiltered, altMerge, matchRows, dfFull, exSelf, swap,
        List.filter, List.flatMap]
    have hR : winsSel exSelf "A" "A" = [⟨"A", 5, "A", 5, 1⟩, ⟨"A", 5, "A", 5, 1⟩] := by
      simp +decide [winsSel, dfFull, exSelf, swap, List.filter]
    rw [hL, hR]
    simp

/-- C2 amended: under unique MatchIds and for a pair of two distinct teams,
the join-and-filter pipeline reduces to the direct per-pair outcome
computation — the surviving joined rows are in value-preserving bijection
with the bidirectional rows of the pair itself, each Alt_WIN being the ordinary
Outcome of that row. -/
theorem join_reduction_amended (ms : List MatchRow) (hu : uniqueIds ms) (a b : String)
    (hab : a ≠ b) :
    (altSel ms a b).map altWin = (winsSel ms a b).map win
    ∧ (altSel ms a b).length = (winsSel ms a b).length := by
  constructor
  · rw [altSel_eq hu hab, List.map_map]
    rfl
  · rw [altSel_eq hu hab, List.length_map]

/-- Witness for the amended C2 on the three-match fixture of the spec. -/
theorem join_reduction_amended_witness :
    (altSel exSpec "A" "B").map altWin = (winsSel exSpec "A" "B").map win
    ∧ (altSel exSpec "A" "B").length = (winsSel exSpec "A" "B").length :=
  join_reduction_amended exSpec (by decide) "A" "B" (by decide)

/-- C6: under the documented MatchId-uniqueness precondition, a pair of two
distinct teams with zero recorded games shows the sentinel -1 in all three
externally visible matrices, while a pair that played shows its computed
value in each. -/
theorem sentinel_correct (ms : List MatchRow) (hu : uniqueIds ms) (a b : String)
    (hab : a ≠ b) :
    ((winsSel ms a b).length = 0 →
      winsMatrixCell ms a b = -1
      ∧ strengthMatrixCell ms a b = -1
      ∧ diffMatrixCell ms a b = -1)
    ∧ (0 < (winsSel ms a b).length →
      winsCell ms a b = some (((winsSel ms a b).map win).sum)
      ∧ altRateCell ms a b
          = some (round2 ((((winsSel ms a b).map win).sum) / ((winsSel ms a b).length : Rat)))
      ∧ diffCell ms a b
          = some ((((winsSel ms a b).map win).sum)
              - round2 ((((winsSel ms a b).map win).sum) / ((winsSel ms a b).length : Rat)))) := by
  have hsel := altSel_eq hu hab
  constructor
  · intro h0
    have hnil : winsSel ms a b = [] := List.length_eq_zero.mp h0
    have haltnil : altSel ms a b = [] := by
      rw [hsel, hnil]
      rfl
    refine ⟨?_, ?_, ?_⟩
    · simp [winsMatrixCell, winsCell, hnil]
    · simp [strengthMatrixCell, altRateCell, altSumCell, altCntCell, haltnil]
    · simp [diffMatrixCell, diffCell, winsCell, hnil]
  · intro hpos
    have hne : winsSel ms a b ≠ [] := List.length_pos.mp hpos
    have haltne : altSel ms a b ≠ [] := by
      rw [hsel]
      simpa using hne
    have hwc : winsCell ms a b = some (((winsSel ms a b).map win).sum) := by
      simp [winsCell, hne]
    have hrc : altRateCell ms a b
        = some (round2 ((((winsSel ms a b).map win).sum) / ((winsSel ms a b).length : Rat))) := by
      unfold altRateCell altSumCell altCntCell
      rw [if_neg haltne, if_neg haltne, hsel, List.map_map, List.length_map]
      rfl
    refine ⟨hwc, hrc, ?_⟩
    unfold diffCell
    rw [hwc, hrc]

/-- Witness for C6 on the fixture of the spec: the never-played pair (A, Z) shows
-1 everywhere, and the played pair (A, B) shows its computed values. -/
theorem sentinel_correct_witness :
    (winsMatrixCell exSpec "A" "Z" = -1
      ∧ strengthMatrixCell exSpec "A" "Z" = -1
      ∧ diffMatrixCell exSpec "A" "Z" = -1)
    ∧ (winsCell exSpec "A" "B" = some (((winsSel exSpec "A" "B").map win).sum)
      ∧ altRateCell exSpec "A" "B"
          = some (round2 ((((winsSel exSpec "A" "B").map win).sum)
              / ((winsSel exSpec "A" "B").length : Rat)))) := by
  constructor
  · exact (sentinel_correct exSpec (by decide) "A" "Z" (by decide)).1
      (by simp +decide [winsSel, dfFull, exSpec, swap, List.filter])
  · have h := (sentinel_correct exSpec (by decide) "A" "B" (by decide)).2
      (by simp +decide [winsSel, dfFull, exSpec, swap, List.filter])
    exact ⟨h.1, h.2.1⟩

lemma winsSel_self_nil {ms : List MatchRow} (hself : ∀ m ∈ ms, m.team1 ≠ m.team2)
    (a : String) : winsSel ms a a = [] := by
  apply List.filter_eq_nil_iff.mpr
  intro m hm
  rcases dfFull_cases hm with ⟨r, hr, hor⟩
  have hne : m.team1 ≠ m.team2 := by
    rcases hor with h | h
    · rw [h]
      exact hself r hr
    · rw [h]
      exact (hself r hr).symm
  simp only [decide_eq_true_eq]
  rintro ⟨e1, e2⟩
  exact hne (e1.trans e2.symm)

lemma altSel_self_nil (ms : List MatchRow) (a : String) : altSel ms a a = [] := by
  apply List.filter_eq_nil_iff.mpr
  intro x hx
  have hx1 : x.team1 ≠ x.altTeam := by
    simpa using (List.mem_filter.mp hx).2
  simp only [decide_eq_true_eq]
  rintro ⟨e1, e2⟩
  exact hx1 (e1.trans e2.symm)

lemma altRateCell_eq_directRate {ms : List MatchRow} (hu : uniqueIds ms)
    (hself : ∀ m ∈ ms, m.team1 ≠ m.team2) (a b : String) :
    altRateCell ms a b = directRate ms a b := by
  by_cases hab : a = b
  · subst hab
    have h1 : winsSel ms a a = [] := winsSel_self_nil hself a
    have h2 : altSel ms a a = [] := altSel_self_nil ms a
    simp [altRateCell, altSumCell, altCntCell, directRate, h1, h2]
  · have hsel := altSel_eq hu hab
    unfold altRateCell altSumCell altCntCell directRate
    by_cases h : winsSel ms a b = []
    · have h2 : altSel ms a b = [] := by
        rw [hsel, h]
        rfl
      simp [h, h2]
    · have hne : altSel ms a b ≠ [] := by
        rw [hsel]
        simpa using h
      rw [if_neg hne, if_neg hne, if_neg h, hsel, List.map_map, List.length_map]
      rfl

lemma exOne_altSel_AA : altSel exOne "A" "A" = [] := by
  simp +decide [altSel, altFiltered, altMerge, matchRows, dfFull, exOne, swap,
    List.filter, List.flatMap]

lemma exOne_altSel_AB : altSel exOne "A" "B" = [⟨"A", 10, "B", 8, 1, "B", 8⟩] := by
  simp +decide [altSel, altFiltered, altMerge, matchRows, dfFull, exOne, swap,
    List.filter, List.flatMap]

lemma exOne_altCols : altCols exOne = ["A", "B"] := by
  simp +decide [altCols, altFiltered, altMerge, matchRows, dfFull, exOne, swap,
    List.filter, List.flatMap, uniqSorted, sortStrings, insertSorted, List.dedup, List.foldr]

lemma exOne_wins_AA : winsSel exOne "A" "A" = [] := by
  simp +decide [winsSel, dfFull, exOne, swap, List.filter]

lemma exOne_wins_AB : winsSel exOne "A" "B" = [⟨"A", 10, "B", 8, 1⟩] := by
  simp +decide [winsSel, dfFull, exOne, swap, List.filter]

lemma exOne_diffCols : diffCols exOne = ["A", "B"] := by
  simp +decide [diffCols, winsCols, altCols, altFiltered, altMerge, matchRows, dfFull, exOne,
    swap, List.filter, List.flatMap, uniqSorted, sortStrings, insertSorted, List.dedup,
    List.foldr]

/-- Counterexample to C1 as stated: on the one-match feed (A 10 B 8) the
/strength pipeline scores A at 1 (the mean of row A of AltWinRate), while
the mean of row A of the delta matrix Diff = W - AltWinRate is 0; the
mean-based Strength of the code is not the mean of the Diff row. -/
theorem strength_mean_cex :
    strengthScore exOne "A" = 1
    ∧ specDiffRowMean exOne "A" = 0
    ∧ strengthScore exOne "A" ≠ specDiffRowMean exOne "A" := by
  have h1 : strengthScore exOne "A" = 1 := by
    norm_num [strengthScore, strengthRowCells, exOne_altCols, altRateCell, altSumCell,
      altCntCell, exOne_altSel_AA, exOne_altSel_AB, altWin, outcome, round2, roundHalfEven,
      List.filterMap_cons, List.cons_ne_nil]
  have h2 : specDiffRowMean exOne "A" = 0 := by
    norm_num [specDiffRowMean, diffRowCells, exOne_diffCols, diffCell, winsCell,
      exOne_wins_AA, exOne_wins_AB, altRateCell, altSumCell, altCntCell, exOne_altSel_AA,
      exOne_altSel_AB, altWin, win, outcome, round2, roundHalfEven, List.filterMap_cons,
      List.cons_ne_nil]
  refine ⟨h1, h2, ?_⟩
  rw [h1, h2]
  norm_num

/-- C1 amended: with unique MatchIds and no self-matches, the /strength
Strength is the mean of the row of that team in the AltWinRate matrix (equal,
cell by cell, to the direct per-pair win rates) with no subtraction of W,
while the /schedule_strength Strength is the sum of the row of that team in the
delta matrix Diff = W - AltWinRate, skipping undefined cells. -/
theorem strength_reducers_amended (ms : List MatchRow) (a : String) (hu : uniqueIds ms)
    (hself : ∀ m ∈ ms, m.team1 ≠ m.team2) :
    strengthScore ms a
      = ((altCols ms).filterMap (fun b => directRate ms a b)).sum
        / (((altCols ms).filterMap (fun b => directRate ms a b)).length : Rat)
    ∧ schedStrength ms a
      = ((diffCols ms).filterMap (fun b =>
          match winsCell ms a b, directRate ms a b with
          | some w, some r => some (w - r)
          | _, _ => none)).sum := by
  have hcell : ∀ b, altRateCell ms a b = directRate ms a b :=
    fun b => altRateCell_eq_directRate hu hself a b
  constructor
  · unfold strengthScore strengthRowCells
    have hfun : (fun b => altRateCell ms a b) = fun b => directRate ms a b := funext hcell
    rw [hfun]
  · unfold schedStrength diffRowCells diffCell
    have hfun : (fun b => match winsCell ms a b, altRateCell ms a b with
          | some w, some r => some (w - r)
          | _, _ => none)
        = fun b => match winsCell ms a b, directRate ms a b with
          | some w, some r => some (w - r)
          | _, _ => none := by
      funext b
      rw [hcell b]
    rw [hfun]

/-- Witness for the amended C1 on the three-match fixture of the spec. -/
theorem strength_reducers_amended_witness :
    strengthScore exSpec "A"
      = ((altCols exSpec).filterMap (fun b => directRate exSpec "A" b)).sum
        / (((altCols exSpec).filterMap (fun b => directRate exSpec "A" b)).length : Rat)
    ∧ schedStrength exSpec "A"
      = ((diffCols exSpec).filterMap (fun b =>
          match winsCell exSpec "A" b, directRate exSpec "A" b with
          | some w, some r => some (w - r)
          | _, _ => none)).sum :=
  strength_reducers_amended exSpec "A" (by decide) (by decide)

lemma cacheLookup_erase {V : Type} (c : List (String × V × Rat)) (k : String) :
    cacheLookup (cacheErase c k) k = none := by
  unfold cacheLookup cacheErase
  induction c with
  | nil => rfl
  | cons x xs ih =>
    by_cases h : x.1 = k
    · simp [List.filter_cons, h]
    · simp [List.filter_cons, h, List.find?]

lemma cacheGet_none_lookup {V : Type} {s : CacheState V} {now : Rat} {k : String}
    {s1 : CacheState V} (hg : cacheGet s now k = (none, s1)) :
    cacheLookup s1.entries k = none := by
  unfold cacheGet at hg
  rcases hl : cacheLookup s.entries k with _ | ⟨v, ts⟩
  · rw [hl] at hg
    cases hg
    exact hl
  · rw [hl] at hg
    dsimp only at hg
    by_cases hexp : now - ts > s.ttl
    · rw [if_pos hexp] at hg
      cases hg
      exact cacheLookup_erase s.entries k
    · rw [if_neg hexp] at hg
      cases hg

/-- C10: get_or_compute is atomic on error — when the compute step fails and
the computation actually runs (the initial get missed), the error
propagates, a subsequent get for the key still misses exactly as before the
call, and the in-progress coalescing guard of the key is removed. -/
theorem cache_error_atomic {V E : Type} (s : CacheState V) (now : Rat) (k : String) (e : E)
    (h : (cacheGet s now k).1 = none) :
    (getOrCompute s now k (Except.error e)).1 = Except.error e
    ∧ (cacheGet (getOrCompute s now k (Except.error e)).2 now k).1 = none
    ∧ k ∉ (getOrCompute s now k (Except.error e)).2.inProgress := by
  rcases hg : cacheGet s now k with ⟨o, s1⟩
  have ho : o = none := by
    rw [hg] at h
    exact h
  subst ho
  have hlk : cacheLookup s1.entries k = none := cacheGet_none_lookup hg
  have hsecond : ∀ s2 : CacheState V, s2.entries = s1.entries → cacheGet s2 now k = (none, s2) := by
    intro s2 hent
    unfold cacheGet
    rw [hent, hlk]
  unfold getOrCompute
  rw [hg]
  simp only
  set s2 : CacheState V :=
    if k ∈ s1.inProgress then s1 else { s1 with inProgress := k :: s1.inProgress } with hs2
  have hent : s2.entries = s1.entries := by
    rw [hs2]
    split <;> rfl
  rw [hsecond s2 hent]
  refine ⟨rfl, ?_, ?_⟩
  · have hge : cacheGet (dropGuard s2 k) now k = (none, dropGuard s2 k) :=
      hsecond (dropGuard s2 k) hent
    rw [hge]
  · unfold dropGuard
    simp

/-- Witness for C10: an empty cache, key strength, a failing compute. -/
theorem cache_error_atomic_witness :
    (getOrCompute (CacheState.mk (V := Nat) 120 [] []) 0 "strength"
        (Except.error DataError.malformedData)).1 = Except.error DataError.malformedData
    ∧ (cacheGet (getOrCompute (CacheState.mk (V := Nat) 120 [] []) 0 "strength"
        (Except.error DataError.malformedData)).2 0 "strength").1 = none
    ∧ "strength" ∉ (getOrCompute (CacheState.mk (V := Nat) 120 [] []) 0 "strength"
        (Except.error DataError.malformedData)).2.inProgress :=
  cache_error_atomic (CacheState.mk (V := Nat) 120 [] []) 0 "strength"
    DataError.malformedData rfl

end StatsApp

